import Mathlib

/-!
Verification of the `VideoDurationTrim` node (`nodes/videoDurationTrim.py`)
of the ComfyUI-FFmpeg-Tools repository.

The node's single method `trim_video_by_duration` is embedded shallowly:

* the local filesystem is a pair of lists (existing files, existing
  directories); `os.path.join a b` is `a ++ "/" ++ b`;
* the opaque `video` argument is a `VideoHandle` record of the capability
  flags probed by the Python code (`hasattr` results) together with, for the
  duck-typed last-resort branch, whether each probed method raises when
  invoked;
* the two ffmpeg subprocesses are an oracle `FFmpeg` supplying each
  invocation's exit code, stderr text and whether it produced the output
  file; the argv lists built by the code are abstracted into a `Cmd` record
  (re-encode flag, input, output, duration) and the spawned commands are
  returned as a trace list;
* the `duration` float is modelled as a rational number (the code only
  compares it with 0 and interpolates it into the command line);
* the optional ComfyUI integration (`folder_paths`) is a flag plus the two
  directories it would supply;
* Python exceptions become an error sum `TrimError` (the outer handler that
  re-wraps every exception text is message-level only and not modelled).

Method invocations in the four leading save-style branches (lines 87-103 of
the source) are modelled as succeeding writes of the target file; an
exception raised there propagates out of the whole call uniformly and is
not distinguished by any property below.
-/

/-- Python `str.lower()`, character by character. -/
def pyLower (s : String) : String :=
  ⟨s.data.map Char.toLower⟩

/-- Python `str.strip()`: drop whitespace from both ends. -/
def pyStrip (s : String) : String :=
  ⟨((s.data.dropWhile Char.isWhitespace).reverse.dropWhile Char.isWhitespace).reverse⟩

/-- Python `str.startswith(pre)`. -/
def pyStartsWith (s pre : String) : Bool :=
  pre.data.isPrefixOf s.data

/-- Python `str.endswith(suf)`. -/
def pyEndsWith (s suf : String) : Bool :=
  suf.data.isSuffixOf s.data

/-- A filesystem snapshot: the set of existing regular files and the set of
existing directories, each as a list of absolute path strings. -/
structure FS where
  files : List String
  dirs : List String
deriving Repr, DecidableEq

/-- `os.path.exists` on a regular file. -/
def FS.containsFile (fs : FS) (p : String) : Bool :=
  decide (p ∈ fs.files)

/-- `os.path.isdir` / `os.path.exists` on a directory. -/
def FS.hasDir (fs : FS) (d : String) : Bool :=
  decide (d ∈ fs.dirs)

/-- Writing (creating or overwriting) a regular file. -/
def FS.write (fs : FS) (p : String) : FS :=
  { fs with files := if p ∈ fs.files then fs.files else p :: fs.files }

/-- `os.makedirs(d, exist_ok=True)`. -/
def FS.addDir (fs : FS) (d : String) : FS :=
  { fs with dirs := if d ∈ fs.dirs then fs.dirs else d :: fs.dirs }

/-- `os.rename(old, new)` on a regular file: the old path disappears, the
new path appears. -/
def FS.rename (fs : FS) (old new : String) : FS :=
  { fs with files := new :: fs.files.filter (fun q => q ≠ old) }

/-- `shutil.rmtree(td)`: every file and directory inside the tree rooted at
`td` (including `td` itself) disappears. -/
def FS.removeTree (fs : FS) (td : String) : FS :=
  { files := fs.files.filter (fun p => !(p == td || pyStartsWith p (td ++ "/"))),
    dirs := fs.dirs.filter (fun p => !(p == td || pyStartsWith p (td ++ "/"))) }

/-- The error taxonomy of the node: each constructor corresponds to one
`raise ValueError(...)` site of `trim_video_by_duration` (or to a failing
ffmpeg run). -/
inductive TrimError where
  /-- Line 108: the path-like handle names no existing file. -/
  | inputNotFound (path : String)
  /-- Line 166: no capability probe of the last-resort branch succeeded;
  carries the list of failed probe messages accumulated by the code. -/
  | unsupportedInputFormat (attempted : List String)
  /-- Line 170: the materialized input file does not exist. -/
  | cannotCreateTempInput
  /-- Line 181: `duration <= 0`. -/
  | invalidDuration
  /-- Line 268: both ffmpeg attempts exited non-zero; carries the second
  attempt's stderr. -/
  | trimFailed (stderr : String)
  /-- Line 274: ffmpeg reported success but produced no output file. -/
  | outputMissing
deriving Repr, DecidableEq

/-- The capability structure of the opaque `video` argument, as seen by the
`hasattr` / `isinstance` / `callable` probes of lines 87-166, together with
the runtime behaviour of the duck-typed methods tried by the last-resort
branch (whether each raises when called). -/
structure VideoHandle where
  /-- `hasattr(video, "save_video")` (line 87). -/
  hasSaveVideo : Bool
  /-- `hasattr(video, "write_to_file")` (line 91). -/
  hasWriteToFile : Bool
  /-- `hasattr(video, "save")` (lines 95 and 124). -/
  hasSave : Bool
  /-- `callable(getattr(video, "save"))` (line 95). -/
  saveCallable : Bool
  /-- `hasattr(video, "write_to")` (line 99). -/
  hasWriteTo : Bool
  /-- `callable(getattr(video, "write_to"))` (line 99). -/
  writeToCallable : Bool
  /-- `isinstance(video, (str, os.PathLike))` (line 104). -/
  isPathLike : Bool
  /-- The path value when `isPathLike` (line 106). -/
  path : String
  /-- `hasattr(video, "read")` (lines 109 and 151). -/
  hasRead : Bool
  /-- `hasattr(video, "tobytes")` (line 147). -/
  hasTobytes : Bool
  /-- Whether calling `video.save(path)` in the last-resort loop raises
  (also covers a non-callable `save` attribute). -/
  saveRaises : Bool
  /-- `hasattr(video, "write_video")` (line 126 probe list). -/
  hasWriteVideo : Bool
  /-- Whether calling `video.write_video(path)` raises. -/
  writeVideoRaises : Bool
  /-- `hasattr(video, "to_file")`. -/
  hasToFile : Bool
  /-- Whether calling `video.to_file(path)` raises. -/
  toFileRaises : Bool
  /-- `hasattr(video, "export")`. -/
  hasExport : Bool
  /-- Whether calling `video.export(path)` raises. -/
  exportRaises : Bool
  /-- `hasattr(video, "save_to")`. -/
  hasSaveTo : Bool
  /-- Whether calling `video.save_to(path)` raises. -/
  saveToRaises : Bool
  /-- Whether `video.tobytes()` raises. -/
  tobytesRaises : Bool
  /-- Whether `video.read()` raises (last-resort byte block). -/
  readRaises : Bool
deriving Repr, DecidableEq

/-- Which branch of the input-handling chain (lines 87-166) fired. -/
inductive MatBranch where
  | saveVideo
  | writeToFile
  | save
  | writeTo
  | pathLike
  | readStream
  | lastResort
deriving Repr, DecidableEq

/-- A filesystem side effect performed while materializing / normalizing the
input (used to state that the path-like round trip copies nothing). -/
inductive FSEffect where
  | wrote (path : String)
  | renamed (src dst : String)
deriving Repr, DecidableEq

/-- Outcome of a successful materialization: the input path handed to the
rest of the pipeline, the branch that fired, the filesystem afterwards and
the effects performed. -/
structure MatOutcome where
  inputPath : String
  branch : MatBranch
  fs : FS
  effects : List FSEffect
deriving Repr, DecidableEq

/-- The ordered probe list of the last-resort branch (line 124): for each
method name, whether the handle has the attribute and whether calling it
raises. -/
def saveProbes (v : VideoHandle) : List (String × Bool × Bool) :=
  [("save", v.hasSave, v.saveRaises),
   ("write_video", v.hasWriteVideo, v.writeVideoRaises),
   ("to_file", v.hasToFile, v.toFileRaises),
   ("export", v.hasExport, v.exportRaises),
   ("save_to", v.hasSaveTo, v.saveToRaises)]

/-- The `for method_name, method_func in save_methods` loop (lines 132-141):
returns whether some probe saved the file, and the error messages (probe
names here) accumulated for probes that were present but raised before the
first success. -/
def runProbes : List (String × Bool × Bool) → Bool × List String
  | [] => (false, [])
  | (nm, has, raises) :: rest =>
    if has then
      if raises then
        let r := runProbes rest
        (r.1, nm :: r.2)
      else (true, [])
    else runProbes rest

/-- The last-resort branch (lines 117-166): the save-method loop, then the
`tobytes` / `read` byte coercion, else `UnsupportedInputFormat` carrying the
accumulated probe messages.  The `open(..., "wb")` of the byte block runs
whenever the loop saved nothing, creating the target file. -/
def lastResort (v : VideoHandle) (target : String) (fs : FS) :
    Except TrimError MatOutcome :=
  if (runProbes (saveProbes v)).1 then
    .ok ⟨target, .lastResort, fs.write target, [.wrote target]⟩
  else if v.hasTobytes then
    if v.tobytesRaises then
      .error (.unsupportedInputFormat ((runProbes (saveProbes v)).2 ++ ["tobytes/read"]))
    else .ok ⟨target, .lastResort, fs.write target, [.wrote target]⟩
  else if v.hasRead then
    if v.readRaises then
      .error (.unsupportedInputFormat ((runProbes (saveProbes v)).2 ++ ["tobytes/read"]))
    else .ok ⟨target, .lastResort, fs.write target, [.wrote target]⟩
  else .error (.unsupportedInputFormat (runProbes (saveProbes v)).2)

/-- The input-handling chain of lines 87-166: reduce the opaque handle to a
readable file inside `temp_dir` (or use its own path when it is path-like). -/
def materialize (v : VideoHandle) (temp_dir : String) (fs : FS) :
    Except TrimError MatOutcome :=
  let target := temp_dir ++ "/input_video.mp4"
  if v.hasSaveVideo then
    .ok ⟨target, .saveVideo, fs.write target, [.wrote target]⟩
  else if v.hasWriteToFile then
    .ok ⟨target, .writeToFile, fs.write target, [.wrote target]⟩
  else if v.hasSave && v.saveCallable then
    .ok ⟨target, .save, fs.write target, [.wrote target]⟩
  else if v.hasWriteTo && v.writeToCallable then
    .ok ⟨target, .writeTo, fs.write target, [.wrote target]⟩
  else if v.isPathLike then
    if fs.containsFile v.path then .ok ⟨v.path, .pathLike, fs, []⟩
    else .error (.inputNotFound v.path)
  else if v.hasRead then
    .ok ⟨target, .readStream, fs.write target, [.wrote target]⟩
  else lastResort v target fs

/-- Modelled from the spec: the helper `func.video_type` (imported at line 6
but absent from the sources at hand) supplies the recognized video file
extensions; line 173 checks the lower-cased input path against them. -/
def video_type : List String :=
  [".mp4", ".avi", ".mov", ".mkv", ".flv", ".wmv", ".webm", ".m4v", ".mpg", ".mpeg", ".ts"]

/-- The extension test of line 173: `temp_input_path.lower().endswith(video_type())`. -/
def isVideoFile (p : String) : Bool :=
  video_type.any (fun ext => pyEndsWith (pyLower p) ext)

/-- Modelled from the spec: the helper `func.set_file_name` (imported at
line 6 but absent from the sources at hand) derives the output base name
deterministically from the materialized input file name; modelled as the
final path component. -/
def set_file_name (p : String) : String :=
  ⟨(p.data.reverse.takeWhile (fun c => c ≠ '/')).reverse⟩

/-- The extension normalization of lines 172-177: a materialized input whose
name does not end in a recognized video extension is renamed by appending
".mp4". -/
def normalizeExt (inputPath : String) (fs : FS) : String × FS × List FSEffect :=
  if isVideoFile inputPath then (inputPath, fs, [])
  else
    let newPath := inputPath ++ ".mp4"
    (newPath, fs.rename inputPath newPath, [.renamed inputPath newPath])

/-- The ambient environment: the module-level `COMFYUI_INTEGRATION` flag,
the two directories `folder_paths` would supply, the system temp root used
by bare `tempfile.mkdtemp`, and the process working directory used by
`os.path.abspath`. -/
structure Env where
  comfyuiIntegration : Bool
  tempRoot : String
  outputDir : String
  sysTempRoot : String
  cwd : String
deriving Repr, DecidableEq

/-- `os.path.abspath` for the explicit-output branch (line 201): a path
beginning with "/" is already absolute, anything else is resolved against
the process working directory. -/
def abspath (cwd p : String) : String :=
  if pyStartsWith p "/" then p else cwd ++ "/" ++ p

/-- `os.path.dirname`: everything before the final "/". -/
def dirname (p : String) : String :=
  ⟨((p.data.reverse.dropWhile (fun c => c ≠ '/')).reverse).dropLast⟩

/-- Which arm of the output-location resolution (lines 186-214) fired. -/
inductive DestKind where
  /-- `save_to_output` with integration (lines 186-192). -/
  | managedFlag
  /-- Keyword "output" with integration (lines 195-198). -/
  | keywordManaged
  /-- Explicit path naming an existing directory (lines 202-205). -/
  | userDir
  /-- Explicit path used verbatim as a file (lines 206-209). -/
  | userFile
  /-- No destination requested: inside the working directory (line 213). -/
  | ephemeral
deriving Repr, DecidableEq

/-- The output-location resolution of lines 186-214: compute the output file
path (and the directories created on the way). -/
def resolveOutput (env : Env) (output_path : String) (save_to_output : Bool)
    (temp_dir file_name : String) (fs : FS) : String × DestKind × FS :=
  if save_to_output && env.comfyuiIntegration then
    (env.outputDir ++ "/video_trim" ++ "/trimmed_" ++ file_name, .managedFlag,
      fs.addDir (env.outputDir ++ "/video_trim"))
  else if output_path ≠ "" && pyStrip output_path ≠ "" then
    if pyLower (pyStrip output_path) = "output" && env.comfyuiIntegration then
      (env.outputDir ++ "/trimmed_" ++ file_name, .keywordManaged, fs)
    else if fs.hasDir (abspath env.cwd (pyStrip output_path)) then
      (abspath env.cwd (pyStrip output_path) ++ "/trimmed_" ++ file_name,
        .userDir, fs)
    else
      (abspath env.cwd (pyStrip output_path), .userFile,
        fs.addDir (dirname (abspath env.cwd (pyStrip output_path))))
  else
    (temp_dir ++ "/trimmed_" ++ file_name, .ephemeral, fs)

/-- One observed subprocess: the exit code and captured stderr of an ffmpeg
run (`subprocess.run(..., stderr=PIPE, stdout=PIPE, text=True)`). -/
structure ProcResult where
  returncode : Int
  stderr : String
deriving Repr, DecidableEq

/-- Oracle for the two possible ffmpeg invocations of one call: their
observed results and whether each left the output file on disk. -/
structure FFmpeg where
  copyResult : ProcResult
  reencodeResult : ProcResult
  copyWritesOutput : Bool
  reencodeWritesOutput : Bool
deriving Repr, DecidableEq

/-- One spawned ffmpeg command, abstracting the argv lists of lines 218-230
(stream copy, `-c copy`) and 244-258 (re-encode, `-c:v libx264 -c:a aac`):
both share `-y -i input -ss 0 -t duration ... output` and differ only in
the codec arguments, recorded as the `reencode` flag. -/
structure Cmd where
  reencode : Bool
  input : String
  output : String
  duration : ℚ
deriving Repr, DecidableEq

/-- Build the command record for one attempt. -/
def mkCmd (reenc : Bool) (input output : String) (duration : ℚ) : Cmd :=
  { reencode := reenc, input := input, output := output, duration := duration }

/-- The two-tier trim of lines 235-268: run the stream-copy command; on a
non-zero exit run the re-encode command; if that also exits non-zero fail
with the second attempt's stderr.  Returns the outcome (filesystem after
the runs and whether the fallback encode produced the result) and the trace
of spawned commands. -/
def executeTrim (ff : FFmpeg) (inputPath outputPath : String) (duration : ℚ)
    (fs : FS) : Except TrimError (FS × Bool) × List Cmd :=
  let c1 := mkCmd false inputPath outputPath duration
  let fs1 := if ff.copyWritesOutput then fs.write outputPath else fs
  if ff.copyResult.returncode ≠ 0 then
    let c2 := mkCmd true inputPath outputPath duration
    let fs2 := if ff.reencodeWritesOutput then fs1.write outputPath else fs1
    if ff.reencodeResult.returncode ≠ 0 then
      (.error (.trimFailed ff.reencodeResult.stderr), [c1, c2])
    else (.ok (fs2, true), [c1, c2])
  else (.ok (fs1, false), [c1])

/-- The host-interaction profile of the result-wrapping block
(lines 278-319): which imports succeed and which constructors or reads
raise. -/
structure WrapEnv where
  /-- `from comfy_api.input_impl.video_types import VideoFromFile` succeeds
  (line 280). -/
  videoFromFileImportable : Bool
  /-- `VideoFromFile(temp_output_path)` raises (line 283). -/
  videoFromFileCtorRaises : Bool
  /-- `from comfy_api.latest._input_impl.video_types import VideoFromFile`
  succeeds (lines 293 and 309). -/
  latestImportable : Bool
  /-- The latest-variant constructor raises on the in-memory byte stream
  (line 297). -/
  latestCtorFromBytesRaises : Bool
  /-- The latest-variant constructor raises on the file path (line 313). -/
  latestCtorFromPathRaises : Bool
  /-- Reading the output file into memory raises (line 290). -/
  readBackRaises : Bool
deriving Repr, DecidableEq

/-- The value handed back to the caller as the VIDEO result. -/
inductive ResultHandle where
  /-- `VideoFromFile(path)` (line 283). -/
  | preferredVideo (path : String)
  /-- Latest-variant video object built from the bytes read from the file
  (line 297). -/
  | latestVideoFromBytes (path : String)
  /-- Latest-variant video object built from the path (line 313). -/
  | latestVideoFromPath (path : String)
  /-- The file's contents as raw bytes; never produced by the code, present
  to state the specified chain. -/
  | rawBytes (path : String)
  /-- The bare output path string (lines 302 and 318). -/
  | filePathString (path : String)
deriving Repr, DecidableEq

/-- The result-wrapping block of lines 278-319 as the code implements it. -/
def wrap (w : WrapEnv) (outputPath : String) : ResultHandle :=
  if w.videoFromFileImportable then
    if w.videoFromFileCtorRaises then
      if w.latestImportable && !w.latestCtorFromPathRaises then
        .latestVideoFromPath outputPath
      else .filePathString outputPath
    else .preferredVideo outputPath
  else
    if !w.readBackRaises && (w.latestImportable && !w.latestCtorFromBytesRaises) then
      .latestVideoFromBytes outputPath
    else .filePathString outputPath

/-- The result-wrapping chain exactly as the specification's claim states
it: preferred object from the path, else the alternate versioned variant,
else the file contents as raw bytes, else the path string. -/
def wrapSpec (w : WrapEnv) (outputPath : String) : ResultHandle :=
  if w.videoFromFileImportable && !w.videoFromFileCtorRaises then
    .preferredVideo outputPath
  else if w.latestImportable && !w.latestCtorFromPathRaises then
    .latestVideoFromPath outputPath
  else if !w.readBackRaises then .rawBytes outputPath
  else .filePathString outputPath

/-- Everything observable about one full invocation of
`trim_video_by_duration`. -/
structure PipelineResult where
  result : Except TrimError ResultHandle
  fs : FS
  cmds : List Cmd
  effects : List FSEffect
  matBranch : Option MatBranch
  temp_input_path : Option String
  temp_output_path : Option String
  destKind : Option DestKind
  temp_dir : String
  usedFallback : Bool
  cleaned : Bool
deriving Repr

/-- The invocation arguments of the node's method. -/
structure Invocation where
  video : VideoHandle
  duration : ℚ
  output_path : String
  save_to_output : Bool
deriving Repr, DecidableEq

/-- The root under which the working directory is created (lines 77-84). -/
def tempRootDir (env : Env) : String :=
  if env.comfyuiIntegration then env.tempRoot else env.sysTempRoot

/-- The uniquely named working directory made by `tempfile.mkdtemp`
(`video_trim_` prefix under the ComfyUI temp root, `comfyui_video_trim_`
prefix under the system root); `nm` is the random suffix chosen by the
library. -/
def tempDirPath (env : Env) (nm : String) : String :=
  if env.comfyuiIntegration then env.tempRoot ++ "/video_trim_" ++ nm
  else env.sysTempRoot ++ "/comfyui_video_trim_" ++ nm

/-- Intermediate state of the `try` body before the `finally` block runs. -/
structure CoreOut where
  result : Except TrimError ResultHandle
  fs : FS
  cmds : List Cmd
  effects : List FSEffect
  matBranch : Option MatBranch
  tempIn : Option String
  tempOut : Option String
  destKind : Option DestKind
  usedFallback : Bool
deriving Repr

/-- The `try` body of lines 75-321: materialize the input, validate it,
normalize its extension, validate the duration, resolve the output
location, run the two-tier trim, verify the output file and wrap it. -/
def pipelineCore (env : Env) (ff : FFmpeg) (w : WrapEnv) (temp_dir : String)
    (fs : FS) (inv : Invocation) : CoreOut :=
  match materialize inv.video temp_dir fs with
  | .error e =>
    { result := .error e, fs := fs, cmds := [], effects := [],
      matBranch := none, tempIn := none, tempOut := none,
      destKind := none, usedFallback := false }
  | .ok m =>
    if !(m.fs.containsFile m.inputPath) then
      { result := .error .cannotCreateTempInput, fs := m.fs, cmds := [],
        effects := m.effects, matBranch := some m.branch,
        tempIn := some m.inputPath, tempOut := none, destKind := none,
        usedFallback := false }
    else
      let n := normalizeExt m.inputPath m.fs
      let ip := n.1
      let fs2 := n.2.1
      let effs := m.effects ++ n.2.2
      if inv.duration ≤ 0 then
        { result := .error .invalidDuration, fs := fs2, cmds := [],
          effects := effs, matBranch := some m.branch, tempIn := some ip,
          tempOut := none, destKind := none, usedFallback := false }
      else
        let file_name := set_file_name ip
        let r := resolveOutput env inv.output_path inv.save_to_output
          temp_dir file_name fs2
        let outp := r.1
        let k := r.2.1
        let fs3 := r.2.2
        let e := executeTrim ff ip outp inv.duration fs3
        match e.1 with
        | .error err =>
          { result := .error err, fs := fs3, cmds := e.2, effects := effs,
            matBranch := some m.branch, tempIn := some ip,
            tempOut := some outp, destKind := some k, usedFallback := false }
        | .ok (fs4, fb) =>
          if !(fs4.containsFile outp) then
            { result := .error .outputMissing, fs := fs4, cmds := e.2,
              effects := effs, matBranch := some m.branch,
              tempIn := some ip, tempOut := some outp, destKind := some k,
              usedFallback := fb }
          else
            { result := .ok (wrap w outp), fs := fs4, cmds := e.2,
              effects := effs, matBranch := some m.branch,
              tempIn := some ip, tempOut := some outp, destKind := some k,
              usedFallback := fb }

/-- The cleanup predicate of the `finally` block (lines 332-361): the two
integration arms test the identical condition, namely that a non-blank
explicit output path string was supplied and the resolved output file does
not lie inside (string-prefix-wise) the working directory.  The invocation's
original `output_path` is used here: the reassignment at line 201 preserves
non-blankness, so the Python truthiness test agrees with it. -/
def shouldCleanup (integration : Bool) (output_path : String)
    (tempOut : Option String) (temp_dir : String) : Bool :=
  if integration then
    output_path ≠ "" && pyStrip output_path ≠ "" &&
      (match tempOut with
       | some p => !(pyStartsWith p temp_dir)
       | none => false)
  else
    output_path ≠ "" && pyStrip output_path ≠ "" &&
      (match tempOut with
       | some p => !(pyStartsWith p temp_dir)
       | none => false)

/-- The whole of `VideoDurationTrim.trim_video_by_duration`
(lines 66-371): create the working directory, run the `try` body, then run
the `finally` cleanup. -/
def trim_video_by_duration (env : Env) (ff : FFmpeg) (w : WrapEnv)
    (nm : String) (fs0 : FS) (inv : Invocation) : PipelineResult :=
  let td := tempDirPath env nm
  let fs1 := ((fs0.addDir (tempRootDir env)).addDir td)
  let c := pipelineCore env ff w td fs1 inv
  let clean := c.fs.hasDir td && shouldCleanup env.comfyuiIntegration
    inv.output_path c.tempOut td
  { result := c.result,
    fs := if clean then c.fs.removeTree td else c.fs,
    cmds := c.cmds, effects := c.effects, matBranch := c.matBranch,
    temp_input_path := c.tempIn, temp_output_path := c.tempOut,
    destKind := c.destKind, temp_dir := td, usedFallback := c.usedFallback,
    cleaned := clean }

deriving instance DecidableEq for Except

/-- Whether an `Except` is a success. -/
def isOkE {ε α : Type} : Except ε α → Bool
  | .ok _ => true
  | .error _ => false

/-- The branch of a materialization outcome, when it succeeded. -/
def matBranchOf : Except TrimError MatOutcome → Option MatBranch
  | .ok m => some m.branch
  | .error _ => none

/-- The produced input path of a materialization outcome, when it
succeeded. -/
def matPathOf : Except TrimError MatOutcome → Option String
  | .ok m => some m.inputPath
  | .error _ => none

/-- The stderr carried by a `trimFailed` outcome, if that is what the
executor produced. -/
def trimFailedStderr : Except TrimError (FS × Bool) → Option String
  | .error (.trimFailed s) => some s
  | _ => none

/-- The fallback-encode flag of a successful executor outcome. -/
def okFallbackFlag : Except TrimError (FS × Bool) → Option Bool
  | .ok (_, b) => some b
  | .error _ => none

/-- The handle exposes one of the four leading save-to-path capabilities
(lines 87-103). -/
def hasSaveCap (v : VideoHandle) : Bool :=
  v.hasSaveVideo || v.hasWriteToFile || (v.hasSave && v.saveCallable) ||
    (v.hasWriteTo && v.writeToCallable)

/-- The handle is a bare path-like value: no save-style capability, just a
path (the shape a `str` input has). -/
def isPlainPathHandle (v : VideoHandle) : Bool :=
  !v.hasSaveVideo && !v.hasWriteToFile && !(v.hasSave && v.saveCallable) &&
    !(v.hasWriteTo && v.writeToCallable) && v.isPathLike

/-- Some coercion of the last-resort branch succeeds: one of the five
save-style probes, or the byte coercion (`tobytes`, else `read`). -/
def lastResortSaved (v : VideoHandle) : Bool :=
  (v.hasSave && !v.saveRaises) || (v.hasWriteVideo && !v.writeVideoRaises) ||
  (v.hasToFile && !v.toFileRaises) || (v.hasExport && !v.exportRaises) ||
  (v.hasSaveTo && !v.saveToRaises) ||
  (v.hasTobytes && !v.tobytesRaises) ||
  (!v.hasTobytes && v.hasRead && !v.readRaises)

/-- The names of the save-style probes that were present on the handle but
raised when called. -/
def loopProbeErrors (v : VideoHandle) : List String :=
  (saveProbes v).filterMap (fun x => if x.2.1 && x.2.2 then some x.1 else none)

/-- The probe messages the last-resort branch accumulates when nothing
succeeds: one entry per save-style method that was present but raised, plus
the byte-coercion entry when it was attempted and raised. -/
def attemptedProbes (v : VideoHandle) : List String :=
  loopProbeErrors v ++
    (if (v.hasTobytes && v.tobytesRaises) ||
        (!v.hasTobytes && v.hasRead && v.readRaises)
     then ["tobytes/read"] else [])

/-- A bare path-like handle (the shape a `str` argument has): no
capabilities, only a path. -/
def samplePathHandle (p : String) : VideoHandle :=
  ⟨false, false, false, false, false, false, true, p, false, false,
   false, false, false, false, false, false, false, false, false, false, false⟩

/-- Environment with the ComfyUI integration present. -/
def sampleEnvI : Env := ⟨true, "/ct", "/out", "/tmp", "/cwd"⟩

/-- Environment with the ComfyUI integration absent. -/
def sampleEnvN : Env := ⟨false, "/ct", "/out", "/tmp", "/cwd"⟩

/-- Transcoder oracle: the stream-copy attempt succeeds. -/
def sampleFF : FFmpeg := ⟨⟨0, ""⟩, ⟨0, ""⟩, true, true⟩

/-- Host profile in which the preferred video constructor works. -/
def sampleWrap : WrapEnv := ⟨true, false, true, false, false, false⟩

/-- A filesystem holding one video file. -/
def sampleFS : FS := ⟨["/v/in.mp4"], ["/v"]⟩

theorem pyStrip_empty : pyStrip "" = "" := by decide

theorem pyStrip_ne_empty {s : String} (h : pyStrip s ≠ "") : s ≠ "" := by
  intro he
  subst he
  exact h pyStrip_empty

theorem FS.dirs_write (fs : FS) (p : String) : (fs.write p).dirs = fs.dirs := rfl

theorem FS.dirs_rename (fs : FS) (a b : String) :
    (fs.rename a b).dirs = fs.dirs := rfl

theorem FS.files_addDir (fs : FS) (d : String) :
    (fs.addDir d).files = fs.files := rfl

theorem FS.containsFile_addDir (fs : FS) (d p : String) :
    (fs.addDir d).containsFile p = fs.containsFile p := rfl

theorem FS.mem_dirs_addDir {fs : FS} {d : String} (e : String)
    (h : d ∈ fs.dirs) : d ∈ (fs.addDir e).dirs := by
  unfold FS.addDir
  dsimp only
  split
  · exact h
  · exact List.mem_cons_of_mem _ h

theorem FS.mem_dirs_addDir_self (fs : FS) (d : String) :
    d ∈ (fs.addDir d).dirs := by
  unfold FS.addDir
  dsimp only
  split
  · assumption
  · exact List.mem_cons_self _ _

theorem FS.hasDir_removeTree_self (fs : FS) (td : String) :
    (fs.removeTree td).hasDir td = false := by
  unfold FS.removeTree FS.hasDir
  simp [List.mem_filter]

theorem FS.containsFile_write_self (fs : FS) (p : String) :
    (fs.write p).containsFile p = true := by
  unfold FS.write FS.containsFile
  dsimp only
  split
  · simpa
  · simp

theorem FS.containsFile_write_ne (fs : FS) {p q : String} (h : p ≠ q) :
    (fs.write q).containsFile p = fs.containsFile p := by
  unfold FS.write FS.containsFile
  dsimp only
  split
  · rfl
  · simp [h]

theorem FS.containsFile_removeTree_of_not (fs : FS) (td : String) {p : String}
    (h : fs.containsFile p = false) :
    (fs.removeTree td).containsFile p = false := by
  unfold FS.removeTree FS.containsFile at *
  simp only [decide_eq_false_iff_not] at h ⊢
  intro hmem
  exact h (List.mem_of_mem_filter hmem)

theorem lastResort_ok_dirs {v : VideoHandle} {target : String} {fs : FS}
    {m : MatOutcome} (h : lastResort v target fs = .ok m) :
    m.fs.dirs = fs.dirs := by
  unfold lastResort at h
  repeat' split at h
  all_goals first
    | (injection h with h; subst h; rfl)
    | exact Except.noConfusion h

theorem materialize_ok_dirs {v : VideoHandle} {td : String} {fs : FS}
    {m : MatOutcome} (h : materialize v td fs = .ok m) :
    m.fs.dirs = fs.dirs := by
  unfold materialize at h
  repeat' split at h
  all_goals first
    | (injection h with h; subst h; rfl)
    | exact Except.noConfusion h
    | exact lastResort_ok_dirs h

theorem lastResort_ok_contains {v : VideoHandle} {target : String} {fs : FS}
    {m : MatOutcome} (h : lastResort v target fs = .ok m) :
    m.fs.containsFile m.inputPath = true := by
  unfold lastResort at h
  repeat' split at h
  all_goals first
    | (injection h with h; subst h; exact FS.containsFile_write_self _ _)
    | exact Except.noConfusion h

theorem materialize_ok_contains {v : VideoHandle} {td : String} {fs : FS}
    {m : MatOutcome} (h : materialize v td fs = .ok m) :
    m.fs.containsFile m.inputPath = true := by
  unfold materialize at h
  repeat' split at h
  all_goals first
    | (injection h with h; subst h; exact FS.containsFile_write_self _ _)
    | (injection h with h; subst h; assumption)
    | exact Except.noConfusion h
    | exact lastResort_ok_contains h

theorem normalizeExt_dirs (p : String) (fs : FS) :
    (normalizeExt p fs).2.1.dirs = fs.dirs := by
  unfold normalizeExt
  split <;> rfl

theorem resolveOutput_dirs_mono (env : Env) (op : String) (so : Bool)
    (td fn : String) (fs : FS) {d : String} (h : d ∈ fs.dirs) :
    d ∈ (resolveOutput env op so td fn fs).2.2.dirs := by
  unfold resolveOutput
  repeat' split
  all_goals first
    | exact FS.mem_dirs_addDir _ h
    | exact h

theorem executeTrim_ok_dirs {ff : FFmpeg} {ip op : String} {dur : ℚ}
    {fs fs4 : FS} {b : Bool}
    (h : (executeTrim ff ip op dur fs).1 = .ok (fs4, b)) :
    fs4.dirs = fs.dirs := by
  simp only [executeTrim] at h
  repeat' split at h
  all_goals first
    | exact Except.noConfusion h
    | (injection h with h
       injection h with h1 h2
       subst h1
       repeat' split
       all_goals rfl)

theorem pipelineCore_dirs_mono (env : Env) (ff : FFmpeg) (w : WrapEnv)
    (td : String) (fs : FS) (inv : Invocation) {d : String}
    (h : d ∈ fs.dirs) : d ∈ (pipelineCore env ff w td fs inv).fs.dirs := by
  unfold pipelineCore
  cases hm : materialize inv.video td fs with
  | error e => exact h
  | ok m =>
    have hd : m.fs.dirs = fs.dirs := materialize_ok_dirs hm
    have hm2 : d ∈ m.fs.dirs := hd.symm ▸ h
    have hn : d ∈ (normalizeExt m.inputPath m.fs).2.1.dirs :=
      (normalizeExt_dirs m.inputPath m.fs).symm ▸ hm2
    have hr : d ∈ (resolveOutput env inv.output_path inv.save_to_output td
        (set_file_name (normalizeExt m.inputPath m.fs).1)
        (normalizeExt m.inputPath m.fs).2.1).2.2.dirs :=
      resolveOutput_dirs_mono _ _ _ _ _ _ hn
    dsimp only
    split
    · exact hm2
    · split
      · exact hn
      · split
        · exact hr
        · rename_i fs4 fb heq
          have h4 : fs4.dirs = _ := executeTrim_ok_dirs heq
          split
          · exact h4.symm ▸ hr
          · exact h4.symm ▸ hr

theorem shouldCleanup_iff (i : Bool) (op : String) (t : Option String)
    (td : String) :
    shouldCleanup i op t td = true ↔
      (pyStrip op ≠ "" ∧ ∃ p, t = some p ∧ pyStartsWith p td = false) := by
  cases i <;> cases t <;> simp [shouldCleanup] <;>
    exact fun _ h2 => pyStrip_ne_empty h2

/-- C1 (amended): the working directory is deleted at invocation end iff a
non-blank explicit `output_path` string was supplied and the resolved output
file path does not start with the working directory path.  In particular the
managed-save flag (`save_to_output`) alone, with no explicit `output_path`,
never triggers deletion. -/
theorem C1_cleanup_rule (env : Env) (ff : FFmpeg) (w : WrapEnv) (nm : String)
    (fs0 : FS) (inv : Invocation) :
    ((trim_video_by_duration env ff w nm fs0 inv).fs.hasDir
        (trim_video_by_duration env ff w nm fs0 inv).temp_dir = false) ↔
      (pyStrip inv.output_path ≠ "" ∧
        ∃ p, (trim_video_by_duration env ff w nm fs0 inv).temp_output_path
              = some p ∧
          pyStartsWith p (trim_video_by_duration env ff w nm fs0 inv).temp_dir
              = false) := by
  have htd : tempDirPath env nm ∈
      ((fs0.addDir (tempRootDir env)).addDir (tempDirPath env nm)).dirs :=
    FS.mem_dirs_addDir_self _ _
  have hcore := pipelineCore_dirs_mono env ff w (tempDirPath env nm)
    ((fs0.addDir (tempRootDir env)).addDir (tempDirPath env nm)) inv htd
  have hdir : (pipelineCore env ff w (tempDirPath env nm)
      ((fs0.addDir (tempRootDir env)).addDir (tempDirPath env nm)) inv).fs.hasDir
      (tempDirPath env nm) = true := by
    simpa [FS.hasDir] using hcore
  simp only [trim_video_by_duration, hdir, Bool.true_and]
  cases hsc : shouldCleanup env.comfyuiIntegration inv.output_path
      (pipelineCore env ff w (tempDirPath env nm)
        ((fs0.addDir (tempRootDir env)).addDir (tempDirPath env nm)) inv).tempOut
      (tempDirPath env nm) with
  | true =>
    simpa [FS.hasDir_removeTree_self] using (shouldCleanup_iff _ _ _ _).mp hsc
  | false =>
    rw [if_neg (fun h => Bool.noConfusion h)]
    constructor
    · intro hfalse
      exact absurd hdir (by simp [hfalse])
    · rintro ⟨h1, p, hp, hs⟩
      have hx := (shouldCleanup_iff env.comfyuiIntegration inv.output_path
        (pipelineCore env ff w (tempDirPath env nm)
          ((fs0.addDir (tempRootDir env)).addDir (tempDirPath env nm)) inv).tempOut
        (tempDirPath env nm)).mpr ⟨h1, ⟨p, hp, hs⟩⟩
      rw [hsc] at hx
      exact Bool.noConfusion hx


/-- C1 counterexample: with the managed-save flag set and no explicit
output path, the call succeeds, the resolved output lies outside the
working directory and a managed destination was requested, yet the working
directory still exists afterwards — the claimed deletion rule fails for the
managed-save flag alone. -/
theorem C1_counterexample :
    isOkE (trim_video_by_duration sampleEnvI sampleFF sampleWrap "abc"
      sampleFS ⟨samplePathHandle "/v/in.mp4", 5, "", true⟩).result = true ∧
    (trim_video_by_duration sampleEnvI sampleFF sampleWrap "abc"
      sampleFS ⟨samplePathHandle "/v/in.mp4", 5, "", true⟩).temp_output_path
        = some "/out/video_trim/trimmed_in.mp4" ∧
    pyStartsWith "/out/video_trim/trimmed_in.mp4"
      (trim_video_by_duration sampleEnvI sampleFF sampleWrap "abc"
        sampleFS ⟨samplePathHandle "/v/in.mp4", 5, "", true⟩).temp_dir
        = false ∧
    (trim_video_by_duration sampleEnvI sampleFF sampleWrap "abc"
      sampleFS ⟨samplePathHandle "/v/in.mp4", 5, "", true⟩).destKind
        = some .managedFlag ∧
    (trim_video_by_duration sampleEnvI sampleFF sampleWrap "abc"
      sampleFS ⟨samplePathHandle "/v/in.mp4", 5, "", true⟩).fs.hasDir
      (trim_video_by_duration sampleEnvI sampleFF sampleWrap "abc"
        sampleFS ⟨samplePathHandle "/v/in.mp4", 5, "", true⟩).temp_dir
        = true :=
  ⟨rfl, rfl, by decide, rfl, by decide⟩

theorem append_mp4_ne (s : String) : s ++ ".mp4" ≠ s := by
  intro h
  have hl := congrArg String.length h
  rw [String.length_append, show String.length ".mp4" = 4 from rfl] at hl
  omega

theorem FS.containsFile_rename_self (fs : FS) {old new : String}
    (hne : new ≠ old) : (fs.rename old new).containsFile old = false := by
  unfold FS.rename FS.containsFile
  simp only [List.mem_cons, decide_eq_false_iff_not]
  rintro (h | h)
  · exact hne h.symm
  · have h2 := (List.mem_filter.mp h).2
    simp at h2

theorem executeTrim_ok_contains_ne {ff : FFmpeg} {ip op : String} {dur : ℚ}
    {fs fs4 : FS} {b : Bool}
    (h : (executeTrim ff ip op dur fs).1 = .ok (fs4, b)) {p : String}
    (hne : p ≠ op) : fs4.containsFile p = fs.containsFile p := by
  simp only [executeTrim] at h
  repeat' split at h
  all_goals first
    | exact Except.noConfusion h
    | (injection h with h
       injection h with h1 h2
       subst h1
       repeat' split
       all_goals simp [FS.containsFile_write_ne _ hne])

theorem resolveOutput_containsFile (env : Env) (op : String) (so : Bool)
    (td fn : String) (fs : FS) (p : String) :
    (resolveOutput env op so td fn fs).2.2.containsFile p
      = fs.containsFile p := by
  unfold resolveOutput
  repeat' split
  all_goals rfl

theorem runProbes_fst (l : List (String × Bool × Bool)) :
    (runProbes l).1 = l.any (fun x => x.2.1 && !x.2.2) := by
  induction l with
  | nil => rfl
  | cons x rest ih =>
    obtain ⟨nm, has, raises⟩ := x
    unfold runProbes
    dsimp only
    split
    · split
      · simpa [*]
      · simp [*]
    · simpa [*]

theorem runProbes_snd_of_not {l : List (String × Bool × Bool)}
    (h : (runProbes l).1 = false) :
    (runProbes l).2
      = l.filterMap (fun x => if x.2.1 && x.2.2 then some x.1 else none) := by
  induction l with
  | nil => rfl
  | cons x rest ih =>
    obtain ⟨nm, has, raises⟩ := x
    unfold runProbes at h ⊢
    dsimp only at h ⊢
    split at h
    · split at h
      · simp_all
      · simp_all
    · simp_all

theorem materialize_plain_path (v : VideoHandle) (td : String) (fs : FS)
    (hplain : isPlainPathHandle v = true) :
    materialize v td fs =
      (if fs.containsFile v.path then .ok ⟨v.path, .pathLike, fs, []⟩
       else .error (.inputNotFound v.path)) := by
  simp only [isPlainPathHandle, Bool.and_eq_true, Bool.not_eq_true'] at hplain
  obtain ⟨⟨⟨⟨h1, h2⟩, h3⟩, h4⟩, h5⟩ := hplain
  unfold materialize
  rw [if_neg (by simp [h1]), if_neg (by simp [h2]), if_neg (by simp [h3]),
    if_neg (by simp [h4]), if_pos h5]

theorem pipelineCore_matBranch (env : Env) (ff : FFmpeg) (w : WrapEnv)
    (td : String) (fs : FS) (inv : Invocation) :
    (pipelineCore env ff w td fs inv).matBranch
      = matBranchOf (materialize inv.video td fs) := by
  unfold pipelineCore
  cases hm : materialize inv.video td fs with
  | error e => rfl
  | ok m =>
    dsimp only [matBranchOf]
    repeat' split
    all_goals rfl

theorem lastResort_not_saved (v : VideoHandle) (target : String) (fs : FS)
    (hRead : v.hasRead = false) (h : lastResortSaved v = false) :
    lastResort v target fs
      = .error (.unsupportedInputFormat (attemptedProbes v)) := by
  simp only [lastResortSaved, Bool.or_eq_false_iff] at h
  obtain ⟨⟨⟨⟨⟨⟨c1, c2⟩, c3⟩, c4⟩, c5⟩, c6⟩, c7⟩ := h
  have hLoop : (runProbes (saveProbes v)).1 = false := by
    rw [runProbes_fst]
    simp [saveProbes, c1, c2, c3, c4, c5]
  unfold lastResort
  rw [if_neg (by simp [hLoop])]
  cases htb : v.hasTobytes with
  | true =>
    have htr : v.tobytesRaises = true := by simpa [htb] using c6
    simp [htb, htr, runProbes_snd_of_not hLoop, attemptedProbes,
      loopProbeErrors]
  | false =>
    simp [htb, hRead, runProbes_snd_of_not hLoop, attemptedProbes,
      loopProbeErrors]

/-- C4: the stream-copy command is always spawned first; the re-encode
command is spawned iff the copy attempt exits non-zero; the executor fails
with `trimFailed` iff both attempts exit non-zero, and the failure carries
the re-encode attempt's stderr. -/
theorem C4_two_tier_fallback (ff : FFmpeg) (ip op : String) (d : ℚ)
    (fs : FS) :
    (executeTrim ff ip op d fs).2.head? = some (mkCmd false ip op d) ∧
    (mkCmd true ip op d ∈ (executeTrim ff ip op d fs).2 ↔
      ff.copyResult.returncode ≠ 0) ∧
    trimFailedStderr (executeTrim ff ip op d fs).1 =
      (if ff.copyResult.returncode ≠ 0 ∧ ff.reencodeResult.returncode ≠ 0
       then some ff.reencodeResult.stderr else none) := by
  by_cases h1 : ff.copyResult.returncode ≠ 0 <;>
    by_cases h2 : ff.reencodeResult.returncode ≠ 0 <;>
      simp [executeTrim, h1, h2, trimFailedStderr, mkCmd]

/-- C5: the executor produces its single result with the fallback flag set
iff the copy attempt failed and the re-encode succeeded, and it succeeds
iff one of the two attempts exits zero. -/
theorem C5_fallback_flag (ff : FFmpeg) (ip op : String) (d : ℚ) (fs : FS) :
    okFallbackFlag (executeTrim ff ip op d fs).1 =
      (if ff.copyResult.returncode = 0 then some false
       else if ff.reencodeResult.returncode = 0 then some true else none) ∧
    (isOkE (executeTrim ff ip op d fs).1 = true ↔
      (ff.copyResult.returncode = 0 ∨ ff.reencodeResult.returncode = 0)) := by
  by_cases h1 : ff.copyResult.returncode = 0 <;>
    by_cases h2 : ff.reencodeResult.returncode = 0 <;>
      simp [executeTrim, h1, h2, okFallbackFlag, isOkE]

/-- C8 (amended): the result wrapper tries, in order, the preferred
file-backed video object from the path; then the alternate versioned
variant (from the file's bytes when the preferred type could not be
imported, from the path when preferred construction raised); then the bare
file path string.  Raw bytes are never returned, and the wrapper never
fails. -/
theorem C8_wrap_chain (w : WrapEnv) (p q : String) :
    (wrap w p = .preferredVideo p ↔
      w.videoFromFileImportable = true ∧ w.videoFromFileCtorRaises = false) ∧
    (wrap w p = .latestVideoFromPath p ↔
      w.videoFromFileImportable = true ∧ w.videoFromFileCtorRaises = true ∧
        w.latestImportable = true ∧ w.latestCtorFromPathRaises = false) ∧
    (wrap w p = .latestVideoFromBytes p ↔
      w.videoFromFileImportable = false ∧ w.readBackRaises = false ∧
        w.latestImportable = true ∧ w.latestCtorFromBytesRaises = false) ∧
    wrap w p ≠ .rawBytes q := by
  obtain ⟨a, b, c, d, e, f⟩ := w
  cases a <;> cases b <;> cases c <;> cases d <;> cases e <;> cases f <;>
    simp [wrap]

/-- C8 counterexample: when the preferred video type cannot be imported and
the alternate versioned constructor is unavailable, the code returns the
file path string, while the specified chain would return the file's raw
bytes. -/
theorem C8_counterexample :
    wrap ⟨false, false, false, false, false, false⟩ "/o.mp4"
        = .filePathString "/o.mp4" ∧
    wrapSpec ⟨false, false, false, false, false, false⟩ "/o.mp4"
        = .rawBytes "/o.mp4" ∧
    wrap ⟨false, false, false, false, false, false⟩ "/o.mp4"
        ≠ wrapSpec ⟨false, false, false, false, false, false⟩ "/o.mp4" :=
  ⟨rfl, rfl, by decide⟩

/-- C2 (amended): when the explicit output target is the keyword "output"
(after stripping and lowering) and the ComfyUI integration is absent, the
resolution does NOT fall through to ephemeral semantics: it treats the
keyword as a literal user path, resolving it against the process working
directory — an existing directory receives `trimmed_<baseName>` inside it,
anything else is used verbatim as the output file path. -/
theorem C2_keyword_fallthrough (env : Env) (op : String) (so : Bool)
    (td fn : String) (fs : FS)
    (hint : env.comfyuiIntegration = false)
    (hop : pyLower (pyStrip op) = "output") :
    (resolveOutput env op so td fn fs).2.1 ≠ DestKind.ephemeral ∧
    (resolveOutput env op so td fn fs).2.1 =
      (if fs.hasDir (abspath env.cwd (pyStrip op)) then DestKind.userDir
       else DestKind.userFile) ∧
    (resolveOutput env op so td fn fs).1 =
      (if fs.hasDir (abspath env.cwd (pyStrip op))
       then abspath env.cwd (pyStrip op) ++ "/trimmed_" ++ fn
       else abspath env.cwd (pyStrip op)) := by
  have h1 : pyStrip op ≠ "" := by
    intro h
    rw [h] at hop
    exact absurd hop (by decide)
  have h0 : op ≠ "" := pyStrip_ne_empty h1
  unfold resolveOutput
  rw [if_neg (by simp [hint]), if_pos (by simp [h0, h1]),
    if_neg (by simp [hint])]
  split <;> simp

/-- Witness for C2: a concrete keyword invocation without the integration
lands on the literal path resolved against the working directory. -/
theorem C2_keyword_fallthrough_witness :
    (resolveOutput sampleEnvN " Output " false "/td" "f.mp4"
      ⟨[], []⟩).2.1 = DestKind.userFile ∧
    (resolveOutput sampleEnvN " Output " false "/td" "f.mp4"
      ⟨[], []⟩).1 = "/cwd/Output" := by
  have h := C2_keyword_fallthrough sampleEnvN " Output " false "/td" "f.mp4"
    ⟨[], []⟩ (by decide) (by decide)
  exact ⟨by rw [h.2.1]; decide, by rw [h.2.2]; decide⟩

/-- C2 counterexample: with the keyword "output" and no integration, a full
invocation resolves the output to the literal path under the process
working directory, not to `<workDir>/trimmed_<baseName>` as the claim
states. -/
theorem C2_counterexample :
    (trim_video_by_duration sampleEnvN sampleFF sampleWrap "abc" sampleFS
      ⟨samplePathHandle "/v/in.mp4", 5, "output", false⟩).temp_output_path
        = some "/cwd/output" ∧
    (trim_video_by_duration sampleEnvN sampleFF sampleWrap "abc" sampleFS
      ⟨samplePathHandle "/v/in.mp4", 5, "output", false⟩).destKind
        = some .userFile ∧
    (trim_video_by_duration sampleEnvN sampleFF sampleWrap "abc" sampleFS
      ⟨samplePathHandle "/v/in.mp4", 5, "output", false⟩).temp_dir
        = "/tmp/comfyui_video_trim_abc" ∧
    some "/cwd/output"
        ≠ some ("/tmp/comfyui_video_trim_abc" ++ "/trimmed_" ++ "in.mp4") :=
  ⟨rfl, rfl, rfl, by decide⟩

/-- C3 (amended): when `duration <= 0` no transcode subprocess is ever
spawned and the call never succeeds; if input materialization succeeds the
failure is `invalidDuration`.  (When materialization itself fails — e.g. a
nonexistent path-like input — the call fails with that earlier error
instead.) -/
theorem C3_duration_guard (env : Env) (ff : FFmpeg) (w : WrapEnv)
    (nm : String) (fs0 : FS) (inv : Invocation)
    (hd : inv.duration ≤ 0) :
    (trim_video_by_duration env ff w nm fs0 inv).cmds = [] ∧
    isOkE (trim_video_by_duration env ff w nm fs0 inv).result = false ∧
    (isOkE (materialize inv.video (tempDirPath env nm)
        ((fs0.addDir (tempRootDir env)).addDir (tempDirPath env nm))) = true →
      (trim_video_by_duration env ff w nm fs0 inv).result
        = .error .invalidDuration) := by
  simp only [trim_video_by_duration]
  unfold pipelineCore
  cases hm : materialize inv.video (tempDirPath env nm)
      ((fs0.addDir (tempRootDir env)).addDir (tempDirPath env nm)) with
  | error e =>
    refine ⟨rfl, rfl, fun hok => ?_⟩
    exact Bool.noConfusion hok
  | ok m =>
    have hc := materialize_ok_contains hm
    dsimp only
    rw [if_neg (by simp [hc]), if_pos hd]
    exact ⟨rfl, rfl, fun _ => rfl⟩

/-- Witness for C3: a concrete zero-duration call on a valid input fails
with `invalidDuration` and spawns nothing. -/
theorem C3_duration_guard_witness :
    (trim_video_by_duration sampleEnvI sampleFF sampleWrap "abc" sampleFS
      ⟨samplePathHandle "/v/in.mp4", 0, "", false⟩).cmds = [] ∧
    isOkE (trim_video_by_duration sampleEnvI sampleFF sampleWrap "abc"
      sampleFS ⟨samplePathHandle "/v/in.mp4", 0, "", false⟩).result
        = false ∧
    (trim_video_by_duration sampleEnvI sampleFF sampleWrap "abc" sampleFS
      ⟨samplePathHandle "/v/in.mp4", 0, "", false⟩).result
        = .error .invalidDuration := by
  have h := C3_duration_guard sampleEnvI sampleFF sampleWrap "abc" sampleFS
    ⟨samplePathHandle "/v/in.mp4", 0, "", false⟩ le_rfl
  exact ⟨h.1, h.2.1, h.2.2 (by decide)⟩

/-- C3 counterexample: a nonexistent path-like input with `duration = 0`
fails with the input-not-found error, not with `invalidDuration`, so the
claim's universally quantified failure kind is wrong. -/
theorem C3_counterexample :
    (trim_video_by_duration sampleEnvI sampleFF sampleWrap "abc" sampleFS
      ⟨samplePathHandle "/missing.mp4", 0, "", false⟩).result
        = .error (.inputNotFound "/missing.mp4") ∧
    (trim_video_by_duration sampleEnvI sampleFF sampleWrap "abc" sampleFS
      ⟨samplePathHandle "/missing.mp4", 0, "", false⟩).result
        ≠ .error .invalidDuration :=
  ⟨rfl, by decide⟩

/-- C10: input materialization runs before duration validation, so for a
path-like handle naming a nonexistent file together with a non-positive
duration the call fails with the input-not-found error (never with
`invalidDuration`), and no subprocess is spawned. -/
theorem C10_materialize_before_duration (env : Env) (ff : FFmpeg)
    (w : WrapEnv) (nm : String) (fs0 : FS) (v : VideoHandle) (d : ℚ)
    (op : String) (so : Bool)
    (hplain : isPlainPathHandle v = true)
    (hmiss : fs0.containsFile v.path = false)
    (hd : d ≤ 0) :
    (trim_video_by_duration env ff w nm fs0 ⟨v, d, op, so⟩).result
      = .error (.inputNotFound v.path) ∧
    (trim_video_by_duration env ff w nm fs0 ⟨v, d, op, so⟩).result
      ≠ .error .invalidDuration ∧
    (trim_video_by_duration env ff w nm fs0 ⟨v, d, op, so⟩).cmds = [] := by
  have hmat := materialize_plain_path v (tempDirPath env nm)
    ((fs0.addDir (tempRootDir env)).addDir (tempDirPath env nm)) hplain
  have hm1 : ((fs0.addDir (tempRootDir env)).addDir
      (tempDirPath env nm)).containsFile v.path = false := hmiss
  simp only [trim_video_by_duration]
  unfold pipelineCore
  rw [hmat, if_neg (by simp [hm1])]
  exact ⟨rfl, by simp, rfl⟩

/-- Witness for C10: a concrete nonexistent input with zero duration. -/
theorem C10_materialize_before_duration_witness :
    (trim_video_by_duration sampleEnvI sampleFF sampleWrap "abc" sampleFS
      ⟨samplePathHandle "/absent.mp4", 0, "", false⟩).result
        = .error (.inputNotFound "/absent.mp4") ∧
    (trim_video_by_duration sampleEnvI sampleFF sampleWrap "abc" sampleFS
      ⟨samplePathHandle "/absent.mp4", 0, "", false⟩).result
        ≠ .error .invalidDuration ∧
    (trim_video_by_duration sampleEnvI sampleFF sampleWrap "abc" sampleFS
      ⟨samplePathHandle "/absent.mp4", 0, "", false⟩).cmds = [] :=
  C10_materialize_before_duration sampleEnvI sampleFF sampleWrap "abc"
    sampleFS (samplePathHandle "/absent.mp4") 0 "" false (by decide)
    (by decide) le_rfl

/-- C6: input materialization probes capabilities in the fixed structural
order save-to-path, path-like (failing with `inputNotFound` on a missing
file), byte-read, last-resort byte coercion (failing with
`unsupportedInputFormat` listing the attempted probes), and the dispatch is
independent of the duration argument. -/
theorem C6_dispatch_order (v : VideoHandle) (td : String) (fs : FS) :
    (hasSaveCap v = true →
      matPathOf (materialize v td fs) = some (td ++ "/input_video.mp4") ∧
      matBranchOf (materialize v td fs) ∈
        [some MatBranch.saveVideo, some MatBranch.writeToFile,
         some MatBranch.save, some MatBranch.writeTo]) ∧
    (hasSaveCap v = false → v.isPathLike = true →
      materialize v td fs =
        (if fs.containsFile v.path then .ok ⟨v.path, .pathLike, fs, []⟩
         else .error (.inputNotFound v.path))) ∧
    (hasSaveCap v = false → v.isPathLike = false → v.hasRead = true →
      materialize v td fs = .ok ⟨td ++ "/input_video.mp4", .readStream,
        fs.write (td ++ "/input_video.mp4"),
        [.wrote (td ++ "/input_video.mp4")]⟩) ∧
    (hasSaveCap v = false → v.isPathLike = false → v.hasRead = false →
      lastResortSaved v = false →
      materialize v td fs
        = .error (.unsupportedInputFormat (attemptedProbes v))) ∧
    (∀ (env : Env) (ff : FFmpeg) (w : WrapEnv) (nm : String) (fs0 : FS)
        (op : String) (so : Bool) (d1 d2 : ℚ),
      (trim_video_by_duration env ff w nm fs0 ⟨v, d1, op, so⟩).matBranch =
        (trim_video_by_duration env ff w nm fs0 ⟨v, d2, op, so⟩).matBranch) := by
  refine ⟨?_, ?_, ?_, ?_, ?_⟩
  · intro h
    unfold materialize matPathOf matBranchOf
    by_cases h1 : v.hasSaveVideo = true
    · simp [h1]
    · by_cases h2 : v.hasWriteToFile = true
      · simp [h1, h2]
      · by_cases h3 : (v.hasSave && v.saveCallable) = true
        · simp [h1, h2, h3]
        · by_cases h4 : (v.hasWriteTo && v.writeToCallable) = true
          · simp [h1, h2, h3, h4]
          · exfalso
            simp only [hasSaveCap, Bool.or_eq_true] at h
            rcases h with ((ha | hb) | hc) | hd
            exacts [h1 ha, h2 hb, h3 hc, h4 hd]
  · intro h hp
    simp only [hasSaveCap, Bool.or_eq_false_iff] at h
    obtain ⟨⟨⟨ha, hb⟩, hc⟩, hd⟩ := h
    unfold materialize
    rw [if_neg (by simp [ha]), if_neg (by simp [hb]), if_neg (by simp [hc]),
      if_neg (by simp [hd]), if_pos hp]
  · intro h hp hr
    simp only [hasSaveCap, Bool.or_eq_false_iff] at h
    obtain ⟨⟨⟨ha, hb⟩, hc⟩, hd⟩ := h
    unfold materialize
    rw [if_neg (by simp [ha]), if_neg (by simp [hb]), if_neg (by simp [hc]),
      if_neg (by simp [hd]), if_neg (by simp [hp]), if_pos hr]
  · intro h hp hr hs
    simp only [hasSaveCap, Bool.or_eq_false_iff] at h
    obtain ⟨⟨⟨ha, hb⟩, hc⟩, hd⟩ := h
    unfold materialize
    rw [if_neg (by simp [ha]), if_neg (by simp [hb]), if_neg (by simp [hc]),
      if_neg (by simp [hd]), if_neg (by simp [hp]), if_neg (by simp [hr])]
    exact lastResort_not_saved v _ fs hr hs
  · intro env ff w nm fs0 op so d1 d2
    simp only [trim_video_by_duration]
    rw [pipelineCore_matBranch, pipelineCore_matBranch]

/-- Witness for C6: a concrete path-like handle with an existing file takes
the path tier and yields the path itself. -/
theorem C6_dispatch_order_witness :
    materialize (samplePathHandle "/v/in.mp4") "/ct/video_trim_abc" sampleFS
      = .ok ⟨"/v/in.mp4", .pathLike, sampleFS, []⟩ := by
  have h := (C6_dispatch_order (samplePathHandle "/v/in.mp4")
    "/ct/video_trim_abc" sampleFS).2.1 (by decide) (by decide)
  rw [h]
  decide

theorem normalizeExt_video (p : String) (fs : FS)
    (h : isVideoFile p = true) : normalizeExt p fs = (p, fs, []) := by
  unfold normalizeExt
  rw [if_pos h]

theorem normalizeExt_nonvideo (p : String) (fs : FS)
    (h : isVideoFile p = false) :
    normalizeExt p fs = (p ++ ".mp4", fs.rename p (p ++ ".mp4"),
      [.renamed p (p ++ ".mp4")]) := by
  unfold normalizeExt
  rw [if_neg (by simp [h])]

/-- C7: materializing a path-like handle that names an existing file whose
extension already matches a recognized video extension yields exactly that
path, with no write and no rename performed. -/
theorem C7_pathlike_roundtrip (env : Env) (ff : FFmpeg) (w : WrapEnv)
    (nm : String) (fs0 : FS) (v : VideoHandle) (d : ℚ) (op : String)
    (so : Bool)
    (hplain : isPlainPathHandle v = true)
    (hex : fs0.containsFile v.path = true)
    (hvid : isVideoFile v.path = true) :
    (trim_video_by_duration env ff w nm fs0 ⟨v, d, op, so⟩).temp_input_path
      = some v.path ∧
    (trim_video_by_duration env ff w nm fs0 ⟨v, d, op, so⟩).effects = [] ∧
    (trim_video_by_duration env ff w nm fs0 ⟨v, d, op, so⟩).matBranch
      = some .pathLike := by
  have hmat := materialize_plain_path v (tempDirPath env nm)
    ((fs0.addDir (tempRootDir env)).addDir (tempDirPath env nm)) hplain
  have hex1 : ((fs0.addDir (tempRootDir env)).addDir
      (tempDirPath env nm)).containsFile v.path = true := hex
  simp only [trim_video_by_duration]
  unfold pipelineCore
  rw [hmat, if_pos hex1]
  dsimp only
  rw [if_neg (by simp [hex1]), normalizeExt_video _ _ hvid]
  dsimp only
  repeat' split
  all_goals exact ⟨rfl, rfl, rfl⟩

/-- Witness for C7: a concrete existing `.mp4` path is passed through
unchanged. -/
theorem C7_pathlike_roundtrip_witness :
    (trim_video_by_duration sampleEnvI sampleFF sampleWrap "abc" sampleFS
      ⟨samplePathHandle "/v/in.mp4", 5, "", false⟩).temp_input_path
        = some "/v/in.mp4" ∧
    (trim_video_by_duration sampleEnvI sampleFF sampleWrap "abc" sampleFS
      ⟨samplePathHandle "/v/in.mp4", 5, "", false⟩).effects = [] ∧
    (trim_video_by_duration sampleEnvI sampleFF sampleWrap "abc" sampleFS
      ⟨samplePathHandle "/v/in.mp4", 5, "", false⟩).matBranch
        = some .pathLike :=
  C7_pathlike_roundtrip sampleEnvI sampleFF sampleWrap "abc" sampleFS
    (samplePathHandle "/v/in.mp4") 5 "" false (by decide) (by decide)
    (by decide)

/-- C9: materializing a path-like handle naming an existing file whose name
does not end in a recognized video extension renames the caller's file on
disk by appending ".mp4"; afterwards (provided the resolved output is not
written to that very path) the original path no longer exists on storage. -/
theorem C9_rename_moves_input (env : Env) (ff : FFmpeg) (w : WrapEnv)
    (nm : String) (fs0 : FS) (v : VideoHandle) (d : ℚ) (op : String)
    (so : Bool)
    (hplain : isPlainPathHandle v = true)
    (hex : fs0.containsFile v.path = true)
    (hvid : isVideoFile v.path = false)
    (hout : (trim_video_by_duration env ff w nm fs0
        ⟨v, d, op, so⟩).temp_output_path ≠ some v.path) :
    (trim_video_by_duration env ff w nm fs0 ⟨v, d, op, so⟩).temp_input_path
      = some (v.path ++ ".mp4") ∧
    (trim_video_by_duration env ff w nm fs0 ⟨v, d, op, so⟩).effects
      = [.renamed v.path (v.path ++ ".mp4")] ∧
    (trim_video_by_duration env ff w nm fs0 ⟨v, d, op, so⟩).fs.containsFile
      v.path = false := by
  have hmat := materialize_plain_path v (tempDirPath env nm)
    ((fs0.addDir (tempRootDir env)).addDir (tempDirPath env nm)) hplain
  have hex1 : ((fs0.addDir (tempRootDir env)).addDir
      (tempDirPath env nm)).containsFile v.path = true := hex
  have hgone : (((fs0.addDir (tempRootDir env)).addDir
      (tempDirPath env nm)).rename v.path
      (v.path ++ ".mp4")).containsFile v.path = false :=
    FS.containsFile_rename_self _ (append_mp4_ne _)
  simp only [trim_video_by_duration] at hout ⊢
  unfold pipelineCore at hout ⊢
  rw [hmat, if_pos hex1] at hout ⊢
  dsimp only at hout ⊢
  rw [if_neg (by simp [hex1]), normalizeExt_nonvideo _ _ hvid] at hout ⊢
  dsimp only at hout ⊢
  split
  · exact ⟨rfl, rfl, by simp [shouldCleanup, hgone]⟩
  · rename_i hdneg
    rw [if_neg hdneg] at hout
    split
    · rename_i err heq
      refine ⟨rfl, rfl, ?_⟩
      have h3 : ((resolveOutput env op so (tempDirPath env nm)
          (set_file_name (v.path ++ ".mp4"))
          (((fs0.addDir (tempRootDir env)).addDir
            (tempDirPath env nm)).rename v.path
            (v.path ++ ".mp4"))).2.2).containsFile v.path = false := by
        rw [resolveOutput_containsFile]
        exact hgone
      dsimp only
      split
      · exact FS.containsFile_removeTree_of_not _ _ h3
      · exact h3
    · rename_i fs4 fb heq
      rw [heq] at hout
      dsimp only at hout
      have houtp : (resolveOutput env op so (tempDirPath env nm)
          (set_file_name (v.path ++ ".mp4"))
          (((fs0.addDir (tempRootDir env)).addDir
            (tempDirPath env nm)).rename v.path
            (v.path ++ ".mp4"))).1 ≠ v.path := by
        intro hpe
        apply hout
        split <;> simp [hpe]
      have h4 : fs4.containsFile v.path = false := by
        rw [executeTrim_ok_contains_ne heq (fun h => houtp h.symm),
          resolveOutput_containsFile]
        exact hgone
      split
      · refine ⟨rfl, rfl, ?_⟩
        dsimp only
        split
        · exact FS.containsFile_removeTree_of_not _ _ h4
        · exact h4
      · refine ⟨rfl, rfl, ?_⟩
        dsimp only
        split
        · exact FS.containsFile_removeTree_of_not _ _ h4
        · exact h4

/-- Witness for C9: a concrete extensionless input file is renamed on disk
and its original path is gone after the call. -/
theorem C9_rename_moves_input_witness :
    (trim_video_by_duration sampleEnvI sampleFF sampleWrap "abc"
      ⟨["/v/raw"], ["/v"]⟩
      ⟨samplePathHandle "/v/raw", 5, "", false⟩).temp_input_path
        = some "/v/raw.mp4" ∧
    (trim_video_by_duration sampleEnvI sampleFF sampleWrap "abc"
      ⟨["/v/raw"], ["/v"]⟩
      ⟨samplePathHandle "/v/raw", 5, "", false⟩).effects
        = [.renamed "/v/raw" "/v/raw.mp4"] ∧
    (trim_video_by_duration sampleEnvI sampleFF sampleWrap "abc"
      ⟨["/v/raw"], ["/v"]⟩
      ⟨samplePathHandle "/v/raw", 5, "", false⟩).fs.containsFile "/v/raw"
        = false := by
  have h := C9_rename_moves_input sampleEnvI sampleFF sampleWrap "abc"
    ⟨["/v/raw"], ["/v"]⟩ (samplePathHandle "/v/raw") 5 "" false
    (by decide) (by decide) (by decide) (by decide)
  exact h
